import Mathlib

/-!
Verification development for the openapi-client-mcp repository: a shallow
embedding in Lean 4 of the dynamic OpenAPI operation resolver and
request/response engine, together with theorems settling the behavioural
claims made by the natural-language specification.

The embedding translates the TypeScript sources:
  src/utils/http-client.ts      (request synthesis, auth headers, response processing)
  src/utils/discovery.ts        (document normalization)
  src/tools/call-api.ts         (pre-call parameter validation)
  src/tools/manage-auth.ts      (credential configuration)
  src/utils/session-manager.ts  (persisted session store)

JavaScript runtime values are modelled by the `Value` inductive; JavaScript
truthiness, property access, `String(x)` coercion and `JSON.stringify` are
modelled explicitly.  Plain JS objects and ES Maps are modelled as
insertion-ordered association lists whose update replaces the value at an
existing key in place; header records are modelled as functions from header
name to optional value, which matches case-sensitive plain-object access.
-/

namespace OpenApiMcp

/-- Model of a JavaScript runtime value.  Numbers are modelled as integers
(the repository never computes with fractional parameter values). -/
inductive Value where
  | undefined : Value
  | null : Value
  | bool (b : Bool) : Value
  | num (n : Int) : Value
  | str (s : String) : Value
  | arr (elems : List Value) : Value
  | obj (fields : List (String × Value)) : Value

/-- JavaScript truthiness: undefined, null, false, 0 and the empty string are
falsy; every array and object is truthy. -/
def truthy : Value → Bool
  | .undefined => false
  | .null => false
  | .bool b => b
  | .num n => n != 0
  | .str s => s != ""
  | .arr _ => true
  | .obj _ => true

/-- Whether `typeof v === "object"` holds in JavaScript: true for null,
arrays and plain objects. -/
def typeofObject : Value → Bool
  | .null => true
  | .arr _ => true
  | .obj _ => true
  | _ => false

/-- Property read `o[k]` on a caller parameter bag modelled as an
insertion-ordered association list: the first binding wins (JS objects have
unique keys), absence yields undefined. -/
def getProp (fields : List (String × Value)) (k : String) : Value :=
  match fields.find? (fun kv => kv.1 == k) with
  | some kv => kv.2
  | none => .undefined

/-- `String.prototype.startsWith` modelled on character lists. -/
def charsLead : List Char → List Char → Bool
  | [], _ => true
  | _ :: _, [] => false
  | a :: as, b :: bs => a == b && charsLead as bs

/-- `String.prototype.startsWith pat` for strings. -/
def jsStartsWith (s pat : String) : Bool :=
  charsLead pat.toList s.toList

/-- `String.prototype.includes` (substring containment) on character lists. -/
def charsContain (pat : List Char) : List Char → Bool
  | [] => charsLead pat []
  | c :: cs => charsLead pat (c :: cs) || charsContain pat cs

/-- `String.prototype.includes pat` for strings. -/
def jsIncludes (s pat : String) : Bool :=
  charsContain pat.toList s.toList

/-- String coercion `String(v)`.  For arrays JavaScript joins the coerced
elements with commas (with null and undefined elements rendered empty);
plain objects render as "[object Object]". -/
def jsToString : Value → String
  | .undefined => "undefined"
  | .null => "null"
  | .bool b => cond b "true" "false"
  | .num n => toString n
  | .str s => s
  | .arr elems => String.intercalate "," (jsToStringElems elems)
  | .obj _ => "[object Object]"
where
  /-- Array elements under `Array.prototype.toString`: null and undefined
  render as the empty string. -/
  jsToStringElems : List Value → List String
  | [] => []
  | .undefined :: rest => "" :: jsToStringElems rest
  | .null :: rest => "" :: jsToStringElems rest
  | v :: rest => jsToString v :: jsToStringElems rest

/-- JSON string escaping for one character, as performed by
`JSON.stringify` (the repository only ever serializes characters from this
set plus plain printable text). -/
def jsonEscapeChar (c : Char) : String :=
  if c = '"' then "\\\""
  else if c = '\\' then "\\\\"
  else if c = '\n' then "\\n"
  else if c = '\r' then "\\r"
  else if c = '\t' then "\\t"
  else String.singleton c

/-- A JSON-quoted string literal. -/
def jsonQuote (s : String) : String :=
  "\"" ++ String.join (s.toList.map jsonEscapeChar) ++ "\""

mutual

/-- Model of `JSON.stringify`: `none` models the undefined result (stringify
of undefined); inside arrays undefined serializes as null, inside objects a
field with undefined value is dropped. -/
def jsonStringify : Value → Option String
  | .undefined => none
  | .null => some "null"
  | .bool b => some (cond b "true" "false")
  | .num n => some (toString n)
  | .str s => some (jsonQuote s)
  | .arr elems => some ("[" ++ String.intercalate "," (jsonStringifyElems elems) ++ "]")
  | .obj fields => some ("\x7b" ++ String.intercalate "," (jsonStringifyFields fields) ++ "\x7d")

/-- Array elements under `JSON.stringify`: undefined becomes null. -/
def jsonStringifyElems : List Value → List String
  | [] => []
  | v :: rest => ((jsonStringify v).getD "null") :: jsonStringifyElems rest

/-- Object fields under `JSON.stringify`: fields whose value serializes to
undefined are dropped. -/
def jsonStringifyFields : List (String × Value) → List String
  | [] => []
  | (k, v) :: rest =>
    match jsonStringify v with
    | some sv => (jsonQuote k ++ ":" ++ sv) :: jsonStringifyFields rest
    | none => jsonStringifyFields rest

end

/-- Association-list update modelling assignment `o[k] = v` on a plain JS
object or `Map.set`: the value at an existing key is replaced in place,
otherwise the binding is appended. -/
def objSet (fields : List (String × Value)) (k : String) (v : Value) : List (String × Value) :=
  if fields.any (fun kv => kv.1 == k) then
    fields.map (fun kv => if kv.1 == k then (kv.1, v) else kv)
  else
    fields ++ [(k, v)]

/-! ## Data model (src/types/index.ts) -/

/-- `ParameterInfo` from src/types/index.ts.  The source field `in` is a
Lean keyword and is rendered `location`; at runtime it carries whatever
location string the document declared (including "body" for Swagger 2.x
body parameters). -/
structure ParameterInfo where
  name : String
  location : String
  required : Bool
  schema : Value
  description : Option String

/-- `RequestBodyInfo` from src/types/index.ts.  `contentType` is the first
declared media-type key; it is absent when the source content map is empty. -/
structure RequestBodyInfo where
  required : Bool
  contentType : Option String
  schema : Value
  description : Option String

/-- `ResponseInfo` from src/types/index.ts. -/
structure ResponseInfo where
  description : String
  contentType : Option String
  schema : Value

/-- `OperationInfo` from src/types/index.ts. -/
structure OperationInfo where
  operationId : String
  path : String
  method : String
  summary : Option String
  description : Option String
  tags : Option (List String)
  parameters : Option (List ParameterInfo)
  requestBody : Option RequestBodyInfo
  responses : List (String × ResponseInfo)

/-- The closed set of authentication kinds. -/
inductive AuthType where
  | apiKey : AuthType
  | bearer : AuthType
  | basic : AuthType
  | oauth2 : AuthType
deriving DecidableEq

/-- `AuthConfig` from src/types/index.ts: a kind plus a string-to-string
configuration record. -/
structure AuthConfig where
  type : AuthType
  config : List (String × String)
deriving DecidableEq

/-- Read a field of an auth `config` record (absent yields none). -/
def configGet (config : List (String × String)) (k : String) : Option String :=
  (config.find? (fun kv => kv.1 == k)).map (·.2)

/-- Truthiness of an optional string-valued config field: present and
non-empty. -/
def truthyStr : Option String → Bool
  | some s => s != ""
  | none => false

/-- `ApiCallResult` from src/types/index.ts. -/
structure ApiCallResult where
  success : Bool
  statusCode : Option Nat
  data : Option Value
  error : Option String
  headers : Option (List (String × String))
  executionTime : Option Nat

/-! ## Request body synthesis (src/utils/http-client.ts, buildRequestBody) -/

namespace ApiHttpClient

/-- `buildRequestBody` from src/utils/http-client.ts: when the body is not
required and no caller key starts with "body_", an empty JSON object is
returned; otherwise a truthy object-typed `body` value is serialized
verbatim, and failing that the "body_"-prefixed caller entries are
assembled (prefix stripped) into one flat object. -/
def buildRequestBody (requestBody : RequestBodyInfo)
    (parameters : List (String × Value)) : String :=
  if !requestBody.required
      && !(parameters.any (fun kv => jsStartsWith kv.1 "body_")) then
    (jsonStringify (Value.obj [])).getD ""
  else
    let bodyVal := getProp parameters "body"
    if truthy bodyVal && typeofObject bodyVal then
      (jsonStringify bodyVal).getD ""
    else
      let bodyData := parameters.foldl (fun acc kv =>
        if jsStartsWith kv.1 "body_" then
          objSet acc (kv.1.drop 5) kv.2
        else acc) []
      (jsonStringify (Value.obj bodyData)).getD ""

end ApiHttpClient

/-- Whether a value is the undefined value (strict equality test
`x === undefined`). -/
def Value.isUndefined : Value → Bool
  | .undefined => true
  | _ => false

/-- Header records are plain JS objects with case-sensitive keys; modelled
as a function from header name to optional value. -/
def Headers := String → Option String

/-- Header assignment `headers[k] = v`. -/
def hset (h : Headers) (k v : String) : Headers :=
  fun x => if x = k then some v else h x

/-- The base-64 alphabet. -/
def base64Chars : List Char :=
  "ABCDEFGHIJKLMNOPQRSTUVWXYZabcdefghijklmnopqrstuvwxyz0123456789+/".toList

/-- The base-64 digit for a 6-bit group. -/
def b64char (n : Nat) : Char :=
  base64Chars.getD n 'A'

/-- Standard base-64 of a byte list, with padding, as produced by
`Buffer.toString("base64")`. -/
def base64EncodeBytes : List Nat → String
  | [] => ""
  | [b1] =>
    String.mk [b64char (b1 / 4), b64char (b1 % 4 * 16)] ++ "=="
  | [b1, b2] =>
    String.mk [b64char (b1 / 4), b64char (b1 % 4 * 16 + b2 / 16),
      b64char (b2 % 16 * 4)] ++ "="
  | b1 :: b2 :: b3 :: rest =>
    String.mk [b64char (b1 / 4), b64char (b1 % 4 * 16 + b2 / 16),
      b64char (b2 % 16 * 4 + b3 / 64), b64char (b3 % 64)] ++ base64EncodeBytes rest

/-- `Buffer.from(s).toString("base64")`: base-64 of the UTF-8 bytes. -/
def base64Encode (s : String) : String :=
  base64EncodeBytes (s.toUTF8.toList.map (·.toNat))

namespace ApiHttpClient

/-- The default header object literal of `buildHeaders`: Content-Type and
Accept set to application/json plus the client User-Agent. -/
def defaultHeaders : Headers :=
  hset (hset (hset (fun _ => none)
    "Content-Type" "application/json") "Accept" "application/json")
    "User-Agent" "openapi-client-mcp/1.0.0"

/-- `addAuthHeaders` from src/utils/http-client.ts: a single exhaustive
switch over the auth kind; each branch fires only when its required config
fields are truthy (present and non-empty), and each sets its header last,
overwriting any earlier value for the same name. -/
def addAuthHeaders (headers : Headers) (authConfig : AuthConfig) : Headers :=
  match authConfig.type with
  | .apiKey =>
    let headerName := configGet authConfig.config "headerName"
    let apiKey := configGet authConfig.config "apiKey"
    if truthyStr headerName && truthyStr apiKey then
      hset headers (headerName.getD "") (apiKey.getD "")
    else headers
  | .bearer =>
    let token := configGet authConfig.config "token"
    if truthyStr token then
      hset headers "Authorization" ("Bearer " ++ token.getD "")
    else headers
  | .basic =>
    let username := configGet authConfig.config "username"
    let password := configGet authConfig.config "password"
    if truthyStr username && truthyStr password then
      hset headers "Authorization"
        ("Basic " ++ base64Encode (username.getD "" ++ ":" ++ password.getD ""))
    else headers
  | .oauth2 =>
    let accessToken := configGet authConfig.config "accessToken"
    if truthyStr accessToken then
      hset headers "Authorization" ("Bearer " ++ accessToken.getD "")
    else headers

/-- `buildHeaders` from src/utils/http-client.ts: default headers first,
then every operation-declared header parameter with a defined caller value
(set verbatim via String coercion), then the auth headers. -/
def buildHeaders (operation : OperationInfo) (parameters : List (String × Value))
    (authConfig : Option AuthConfig) : Headers :=
  let headers : Headers := defaultHeaders
  let headers := (operation.parameters.getD []).foldl (fun h param =>
    if param.location == "header" && !(getProp parameters param.name).isUndefined then
      hset h param.name (jsToString (getProp parameters param.name))
    else h) headers
  match authConfig with
  | some a => addAuthHeaders headers a
  | none => headers

/-- The transport response consumed by `processResponse`: HTTP status,
status text, response headers, and the outcomes of `response.json()` and
`response.text()` (an error models a thrown parse failure). -/
structure FetchResponse where
  status : Nat
  statusText : String
  headers : List (String × String)
  jsonResult : Except String Value
  textResult : Except String String

/-- Case-insensitive response-header lookup, as `Headers.get` of
node-fetch. -/
def headerLookup (headers : List (String × String)) (name : String) : Option String :=
  (headers.find? (fun kv => String.mk (kv.1.toList.map Char.toLower) == name)).map (·.2)

/-- `response.ok` of node-fetch: status in the 2xx range. -/
def responseOk (response : FetchResponse) : Bool :=
  decide (200 ≤ response.status) && decide (response.status < 300)

/-- `processResponse` from src/utils/http-client.ts: copies the headers,
parses the body as JSON when the content type includes application/json and
as text otherwise (a parse failure is captured as a textual message),
sets success from the status class and formats the HTTP error string. -/
def processResponse (response : FetchResponse) (executionTime : Nat) : ApiCallResult :=
  let contentType := (headerLookup response.headers "content-type").getD ""
  let data : Value :=
    if jsIncludes contentType "application/json" then
      match response.jsonResult with
      | .ok v => v
      | .error e => .str ("Failed to parse response: " ++ e)
    else
      match response.textResult with
      | .ok t => .str t
      | .error e => .str ("Failed to parse response: " ++ e)
  { success := responseOk response
    statusCode := some response.status
    data := some data
    error :=
      if responseOk response then none
      else some ("HTTP " ++ toString response.status ++ ": " ++ response.statusText)
    headers := some response.headers
    executionTime := some executionTime }

/-- The outcome of `callOperation` from src/utils/http-client.ts after the
request has been synthesized: a transport-level failure (the catch branch)
is absorbed into a result with the failure message and the measured
execution time, never re-thrown; a received response goes through
`processResponse`. -/
def callOperationResult (outcome : Except String FetchResponse)
    (executionTime : Nat) : ApiCallResult :=
  match outcome with
  | .ok response => processResponse response executionTime
  | .error msg =>
    { success := false
      statusCode := none
      data := none
      error := some msg
      headers := none
      executionTime := some executionTime }

end ApiHttpClient

/-! ## Pre-call validation (src/tools/call-api.ts) -/

namespace CallApi

/-- The required-parameter validation pass of `callApi`
(src/tools/call-api.ts lines 66-88): collects one annotated entry per
required declared parameter whose caller value is strictly undefined, then
appends a request-body entry when the body is required and the caller bag
has no truthy `body` value.  `parameters = none` models an absent
`params.parameters` bag. -/
def collectMissingParams (operation : OperationInfo)
    (parameters : Option (List (String × Value))) : List String :=
  let missingParams := (operation.parameters.getD []).foldl (fun acc param =>
    if param.required && (match parameters with
        | none => true
        | some ps => (getProp ps param.name).isUndefined) then
      acc ++ [param.name ++ " (" ++ param.location ++ ")"]
    else acc) []
  if (match operation.requestBody with
      | some rb => rb.required
      | none => false)
      && (match parameters with
        | none => true
        | some ps => !truthy (getProp ps "body")) then
    missingParams ++ ["body (request body)"]
  else missingParams

end CallApi

/-! ## Document normalization (src/utils/discovery.ts) -/

namespace OpenApiDiscovery

/-- A raw parameter object as it appears in a dereferenced document.  The
source field `in` is rendered `location`; `required` is absent for
parameters that omit it; `schema` and `type` carry arbitrary document
values (undefined when absent). -/
structure RawParameter where
  name : String
  location : String
  required : Option Bool
  schema : Value
  type : Value
  description : Option String

/-- A raw media-type object (one value of a `content` map). -/
structure RawMediaType where
  schema : Value

/-- A raw request-body object from the document. -/
structure RawRequestBody where
  required : Option Bool
  content : Option (List (String × RawMediaType))
  description : Option String

/-- A raw response object from the document. -/
structure RawResponse where
  description : Option String
  content : Option (List (String × RawMediaType))

/-- A raw operation object from the document. -/
structure RawOperation where
  operationId : Option String
  summary : Option String
  description : Option String
  tags : Option (List String)
  parameters : Option (List RawParameter)
  requestBody : Option RawRequestBody
  responses : Option (List (String × RawResponse))

/-- A raw path item: one optional operation per HTTP-method key, plus
path-item-level parameters. -/
structure RawPathItem where
  get : Option RawOperation
  post : Option RawOperation
  put : Option RawOperation
  delete : Option RawOperation
  patch : Option RawOperation
  head : Option RawOperation
  options : Option RawOperation
  trace : Option RawOperation
  parameters : Option (List RawParameter)

/-- The paths portion of a dereferenced document: entries in source order;
a `none` item models a path entry that is not an object (skipped by the
source loop). -/
structure RawSpec where
  paths : Option (List (String × Option RawPathItem))

/-- The method keys probed on every path item, in source order. -/
def httpMethods : List String :=
  ["get", "post", "put", "delete", "patch", "head", "options", "trace"]

/-- Dynamic access `pathItem[method]` for the eight probed method keys. -/
def pathItemMethod (item : RawPathItem) : String → Option RawOperation
  | "get" => item.get
  | "post" => item.post
  | "put" => item.put
  | "delete" => item.delete
  | "patch" => item.patch
  | "head" => item.head
  | "options" => item.options
  | "trace" => item.trace
  | _ => none

/-- JavaScript truthy-or on an optional string (`a || b`): a present,
non-empty string wins, anything else falls through to the default. -/
def jsOrStr : Option String → String → String
  | some s, d => if s == "" then d else s
  | none, d => d

/-- The sanitization `path.replace(/[^a-zA-Z0-9]/g, "_")` used to derive a
missing operation id. -/
def sanitizePath (path : String) : String :=
  String.mk (path.toList.map (fun c => if c.isAlphanum then c else '_'))

/-- `method.toUpperCase()`. -/
def jsToUpperCase (s : String) : String :=
  String.mk (s.toList.map Char.toUpper)

/-- `extractParameters` from src/utils/discovery.ts: concatenates the
path-item-level parameters and then the operation-level parameters (both
defaulting to empty when absent) and maps each raw entry to a
`ParameterInfo`; path-located parameters are forced required, and a falsy
schema falls back to an object wrapping the Swagger 2.x `type` field. -/
def extractParameters (operationParams pathParams : Option (List RawParameter)) :
    List ParameterInfo :=
  let allParams := pathParams.getD [] ++ operationParams.getD []
  allParams.map (fun param =>
    { name := param.name
      location := param.location
      required := param.required.getD false || param.location == "path"
      schema := if truthy param.schema then param.schema
                else Value.obj [("type", param.type)]
      description := param.description })

/-- `extractRequestBody` from src/utils/discovery.ts: absent body or absent
content map yields no descriptor; otherwise the first declared content-type
key is picked (the source would fault on an empty content map; that case is
modelled as no descriptor and is not exercised by any claim). -/
def extractRequestBody : Option RawRequestBody → Option RequestBodyInfo
  | none => none
  | some rb =>
    match rb.content with
    | none => none
    | some [] => none
    | some ((contentType, mediaType) :: _) =>
      some { required := rb.required.getD false
             contentType := some contentType
             schema := mediaType.schema
             description := rb.description }

/-- `extractResponses` from src/utils/discovery.ts: each response entry
keeps its status key, a defaulted description, and the first content
type/schema when a content map is present. -/
def extractResponses : Option (List (String × RawResponse)) → List (String × ResponseInfo)
  | none => []
  | some responses =>
    responses.map (fun sr =>
      let firstContent := sr.2.content.bind List.head?
      (sr.1,
        { description := jsOrStr sr.2.description "No description"
          contentType := firstContent.map (·.1)
          schema := match firstContent with
            | some (_, mediaType) => mediaType.schema
            | none => .undefined }))

/-- Construction of one `OperationInfo` by the `extractOperations` loop
body: a falsy declared operationId is replaced by the derived
method_sanitizedPath id, the method is upper-cased, and parameters, request
body and responses are extracted. -/
def mkOperationInfo (path : String) (item : RawPathItem) (method : String)
    (operation : RawOperation) : OperationInfo :=
  { operationId := jsOrStr operation.operationId (method ++ "_" ++ sanitizePath path)
    path := path
    method := jsToUpperCase method
    summary := operation.summary
    description := operation.description
    tags := operation.tags
    parameters := some (extractParameters operation.parameters item.parameters)
    requestBody := extractRequestBody operation.requestBody
    responses := extractResponses operation.responses }

/-- `extractOperations` from src/utils/discovery.ts: walks the path entries
in order, skips non-object items, probes the eight method keys in order and
pushes one descriptor per declared method. -/
def extractOperations (spec : RawSpec) : List OperationInfo :=
  match spec.paths with
  | none => []
  | some entries =>
    entries.flatMap (fun pe =>
      match pe.2 with
      | none => []
      | some item =>
        httpMethods.filterMap (fun method =>
          (pathItemMethod item method).map (mkOperationInfo pe.1 item method)))

/-- The number of method keys declared on one path item (a `some` in any of
the eight probed fields). -/
def declaredMethodCount (item : RawPathItem) : Nat :=
  (cond item.get.isSome 1 0) + (cond item.post.isSome 1 0)
    + (cond item.put.isSome 1 0) + (cond item.delete.isSome 1 0)
    + (cond item.patch.isSome 1 0) + (cond item.head.isSome 1 0)
    + (cond item.options.isSome 1 0) + (cond item.trace.isSome 1 0)

/-- The declared (path, upper-cased method) combinations of a document, in
walk order: the reference count against which `extractOperations` is
measured. -/
def declaredPairs (spec : RawSpec) : List (String × String) :=
  match spec.paths with
  | none => []
  | some entries =>
    entries.flatMap (fun pe =>
      match pe.2 with
      | none => []
      | some item =>
        httpMethods.filterMap (fun method =>
          (pathItemMethod item method).map (fun _ => (pe.1, jsToUpperCase method))))

end OpenApiDiscovery

/-! ## Persisted session store (src/utils/session-manager.ts) -/

/-- `ApiSession` from src/utils/session-manager.ts; the ISO timestamp
strings `lastUsed` and `createdAt` are modelled by their epoch-millisecond
values (the code only ever compares them through `Date.getTime()`). -/
structure ApiSession where
  id : String
  name : String
  baseUrl : String
  openApiPath : Option String
  authConfig : Option AuthConfig
  lastUsed : Nat
  createdAt : Nat
deriving DecidableEq

/-- `SessionStorage` from src/utils/session-manager.ts: the persisted map
of sessions (an insertion-ordered association list keyed by session id)
plus the active-session pointer. -/
structure SessionStorage where
  sessions : List (String × ApiSession)
  activeSessionId : Option String
deriving DecidableEq

namespace SessionManager

/-- Key lookup `storage.sessions[id]` (absence models undefined). -/
def sessionsGet (sessions : List (String × ApiSession)) (sessionId : String) :
    Option ApiSession :=
  (sessions.find? (fun kv => kv.1 == sessionId)).map (·.2)

/-- The empty store installed on a missing or corrupt persisted file. -/
def emptyStorage : SessionStorage :=
  { sessions := [], activeSessionId := none }

/-- `loadSessions` from src/utils/session-manager.ts: `parsed = none`
models a file whose content made `JSON.parse` throw (corrupt or
unparsable); a missing file or a parse failure both install the empty
store. -/
def loadSessions (fileExists : Bool) (parsed : Option SessionStorage) : SessionStorage :=
  if fileExists then
    match parsed with
    | some storage => storage
    | none => emptyStorage
  else emptyStorage

/-- `getSession`: map lookup, absence yielding null. -/
def getSession (storage : SessionStorage) (sessionId : String) : Option ApiSession :=
  sessionsGet storage.sessions sessionId

/-- `getAuthConfig` of the session manager: `session?.authConfig || null`. -/
def getAuthConfig (storage : SessionStorage) (sessionId : String) : Option AuthConfig :=
  (sessionsGet storage.sessions sessionId).bind (·.authConfig)

/-- `listSessions`: the session values sorted by `lastUsed` descending with
a stable sort (the JavaScript comparator subtracts the timestamps and
`Array.prototype.sort` is stable). -/
def listSessions (storage : SessionStorage) : List ApiSession :=
  (storage.sessions.map (·.2)).mergeSort (fun a b => decide (b.lastUsed ≤ a.lastUsed))

/-- `setActiveSession`: false and no change for an unknown id; otherwise
the pointer is set and the session's `lastUsed` is refreshed to `now`. -/
def setActiveSession (storage : SessionStorage) (sessionId : String) (now : Nat) :
    Bool × SessionStorage :=
  if (sessionsGet storage.sessions sessionId).isNone then (false, storage)
  else
    (true,
      { sessions := storage.sessions.map (fun kv =>
          if kv.1 == sessionId then (kv.1, { kv.2 with lastUsed := now }) else kv)
        activeSessionId := some sessionId })

/-- `deleteSession` from src/utils/session-manager.ts: false and no change
for an unknown id; otherwise the entry is removed and, when the deleted id
was the active one, the pointer is reassigned to the head of the sorted
remaining sessions (undefined when none remain). -/
def deleteSession (storage : SessionStorage) (sessionId : String) :
    Bool × SessionStorage :=
  if (sessionsGet storage.sessions sessionId).isNone then (false, storage)
  else
    let sessions := storage.sessions.filter (fun kv => kv.1 != sessionId)
    let activeSessionId :=
      if storage.activeSessionId == some sessionId then
        (listSessions { sessions := sessions, activeSessionId := storage.activeSessionId }).head?.map (·.id)
      else storage.activeSessionId
    (true, { sessions := sessions, activeSessionId := activeSessionId })

/-- `setAuthConfig` of the session manager: false for an unknown id;
otherwise the session's auth descriptor is replaced and `lastUsed`
refreshed. -/
def setAuthConfig (storage : SessionStorage) (sessionId : String)
    (authConfig : AuthConfig) (now : Nat) : Bool × SessionStorage :=
  if (sessionsGet storage.sessions sessionId).isNone then (false, storage)
  else
    (true,
      { storage with sessions := storage.sessions.map (fun kv =>
          if kv.1 == sessionId then
            (kv.1, { kv.2 with authConfig := some authConfig, lastUsed := now })
          else kv) })

end SessionManager

/-! ## Credential map of the HTTP client and manage-auth
(src/utils/http-client.ts, src/tools/manage-auth.ts) -/

namespace ApiHttpClient

/-- The `authConfigs` ES Map of `ApiHttpClient`: insertion-ordered, update
replaces in place. -/
abbrev AuthMap := List (String × AuthConfig)

/-- `setAuthConfig` of the HTTP client: `Map.set` on the exact key. -/
def setAuthConfig (m : AuthMap) (apiSource : String) (authConfig : AuthConfig) : AuthMap :=
  if m.any (fun kv => kv.1 == apiSource) then
    m.map (fun kv => if kv.1 == apiSource then (kv.1, authConfig) else kv)
  else m ++ [(apiSource, authConfig)]

/-- `getAuthConfig` of the HTTP client: `Map.get` — an exact-match lookup
on the source-identity key. -/
def getAuthConfig (m : AuthMap) (apiSource : String) : Option AuthConfig :=
  (m.find? (fun kv => kv.1 == apiSource)).map (·.2)

/-- One iteration of the `loadAuthFromSessions` forEach: a session carrying
an auth descriptor and a truthy openApiPath stores the descriptor under its
openApiPath key and also under its baseUrl key. -/
def loadAuthStep (acc : AuthMap) (session : ApiSession) : AuthMap :=
  match session.authConfig, session.openApiPath with
  | some authConfig, some p =>
    if p == "" then acc
    else setAuthConfig (setAuthConfig acc p authConfig) session.baseUrl authConfig
  | _, _ => acc

/-- `loadAuthFromSessions` from src/utils/http-client.ts: for every saved
session carrying an auth descriptor and a truthy openApiPath, the
descriptor is stored under the session's openApiPath key and also under its
baseUrl key. -/
def loadAuthFromSessions (m : AuthMap) (storage : SessionStorage) : AuthMap :=
  (SessionManager.listSessions storage).foldl loadAuthStep m

end ApiHttpClient

namespace ManageAuth

/-- The per-kind required-field validation of `manageAuth`
(src/tools/manage-auth.ts lines 32-68): every missing field contributes its
own message. -/
def validateAuthConfig (auth_type : AuthType) (config : List (String × String)) :
    List String :=
  match auth_type with
  | .apiKey =>
    (if !truthyStr (configGet config "headerName") then
      ["headerName is required for API key authentication"] else [])
    ++ (if !truthyStr (configGet config "apiKey") then
      ["apiKey is required for API key authentication"] else [])
  | .bearer =>
    if !truthyStr (configGet config "token") then
      ["token is required for bearer authentication"] else []
  | .basic =>
    (if !truthyStr (configGet config "username") then
      ["username is required for basic authentication"] else [])
    ++ (if !truthyStr (configGet config "password") then
      ["password is required for basic authentication"] else [])
  | .oauth2 =>
    if !truthyStr (configGet config "accessToken") then
      ["accessToken is required for OAuth2 authentication"] else []

/-- The state change performed by `manageAuth`
(src/tools/manage-auth.ts lines 133-151) once validation passes: the
descriptor is stored in the HTTP-client map under the exact `docs_path`
key; then the saved sessions are searched for a match — by exact
openApiPath or baseUrl equality, or by substring containment in either
direction — and on a match the session's auth is replaced and the client
map is reloaded from the sessions (which keys the descriptor under the
matched session's openApiPath and baseUrl).  A validation failure leaves
both stores unchanged. -/
def manageAuth (m : ApiHttpClient.AuthMap) (storage : SessionStorage)
    (docs_path : String) (auth_type : AuthType) (config : List (String × String))
    (now : Nat) : ApiHttpClient.AuthMap × SessionStorage :=
  if !(validateAuthConfig auth_type config).isEmpty then (m, storage)
  else
    let authConfig : AuthConfig := ⟨auth_type, config⟩
    let m1 := ApiHttpClient.setAuthConfig m docs_path authConfig
    let matchingSession := (SessionManager.listSessions storage).find? (fun session =>
      session.openApiPath == some docs_path
      || session.baseUrl == docs_path
      || (truthyStr session.openApiPath && jsIncludes (session.openApiPath.getD "") docs_path)
      || jsIncludes docs_path session.baseUrl)
    match matchingSession with
    | none => (m1, storage)
    | some session =>
      let storage1 := (SessionManager.setAuthConfig storage session.id authConfig now).2
      (ApiHttpClient.loadAuthFromSessions m1 storage1, storage1)

end ManageAuth

/-! ## Specification-side helper definitions -/

/-- The value the caller header parameters of an operation write last for
header name `n` during `buildHeaders` (none when no operation-declared
header parameter named `n` has a defined caller value): the reference
against which default/caller precedence is stated. -/
def callerHeaderValue (operation : OperationInfo) (parameters : List (String × Value))
    (n : String) : Option String :=
  (operation.parameters.getD []).foldl (fun acc param =>
    if (param.location == "header" && !(getProp parameters param.name).isUndefined)
        && param.name == n then
      some (jsToString (getProp parameters param.name))
    else acc) none

/-- Store well-formedness: the active-session pointer is either unset or
names a key present in the session map. -/
def activeOk (storage : SessionStorage) : Bool :=
  match storage.activeSessionId with
  | none => true
  | some a => storage.sessions.any (fun kv => kv.1 == a)

/-- Store well-formedness: every session record carries the key it is
stored under as its `id` (the session manager always inserts records at
their own id). -/
def idsOk (storage : SessionStorage) : Bool :=
  storage.sessions.all (fun kv => kv.2.id == kv.1)

/-! ## Concrete claim instances -/

/-- An optional (not required) JSON request body descriptor. -/
def rbOptional : RequestBodyInfo :=
  { required := false, contentType := some "application/json"
    schema := .undefined, description := none }

/-- A required JSON request body descriptor. -/
def rbRequired : RequestBodyInfo :=
  { required := true, contentType := some "application/json"
    schema := .undefined, description := none }

/-- An operation whose request body is required and which declares no
parameters. -/
def opRequiredBody : OperationInfo :=
  { operationId := "createPet", path := "/pets", method := "POST"
    summary := none, description := none, tags := none
    parameters := some [], requestBody := some rbRequired, responses := [] }

/-- The createUser operation of the specification example: two required
body-located parameters and no request-body descriptor. -/
def createUserOp : OperationInfo :=
  { operationId := "createUser", path := "/users", method := "POST"
    summary := none, description := none, tags := none
    parameters := some
      [{ name := "username", location := "body", required := true
         schema := .undefined, description := none },
       { name := "email", location := "body", required := true
         schema := .undefined, description := none }]
    requestBody := none, responses := [] }

/-- A raw path-located parameter named id, used at both declaration
levels. -/
def rawIdParam : OpenApiDiscovery.RawParameter :=
  { name := "id", location := "path", required := some true
    schema := .undefined, type := .undefined, description := none }

/-- A raw operation declaring no operationId. -/
def rawOpNoId : OpenApiDiscovery.RawOperation :=
  { operationId := none, summary := none, description := none, tags := none
    parameters := none, requestBody := none, responses := none }

/-- A raw path item declaring only a get operation without an id. -/
def itemGetOnly : OpenApiDiscovery.RawPathItem :=
  { get := some rawOpNoId, post := none, put := none, delete := none
    patch := none, head := none, options := none, trace := none
    parameters := none }

/-- Two distinct paths whose sanitized forms coincide, each declaring a
get operation without an id. -/
def collidingSpec : OpenApiDiscovery.RawSpec :=
  { paths := some [("/a/b", some itemGetOnly), ("/a_b", some itemGetOnly)] }

/-- A saved session whose document URL extends its base URL. -/
def sessionH : ApiSession :=
  { id := "s1", name := "h", baseUrl := "https://h"
    openApiPath := some "https://h/openapi.json", authConfig := none
    lastUsed := 0, createdAt := 0 }

/-- A one-session store holding `sessionH`. -/
def storageH : SessionStorage :=
  { sessions := [("s1", sessionH)], activeSessionId := none }

/-- An operation declaring an Authorization header parameter. -/
def authHeaderOp : OperationInfo :=
  { operationId := "secured", path := "/secure", method := "GET"
    summary := none, description := none, tags := none
    parameters := some
      [{ name := "Authorization", location := "header", required := false
         schema := .undefined, description := none }]
    requestBody := none, responses := [] }

/-- A 404 JSON response. -/
def resp404 : ApiHttpClient.FetchResponse :=
  { status := 404, statusText := "Not Found"
    headers := [("content-type", "application/json")]
    jsonResult := .ok (.obj [("message", .str "missing")])
    textResult := .ok "" }

/-- A session record with the given id and last-used instant. -/
def mkSess (i : String) (t : Nat) : ApiSession :=
  { id := i, name := i, baseUrl := "https://u", openApiPath := none
    authConfig := none, lastUsed := t, createdAt := 0 }

/-- A three-session store whose active session is the least recently
used one. -/
def storageThree : SessionStorage :=
  { sessions := [("a", mkSess "a" 5), ("b", mkSess "b" 9), ("c", mkSess "c" 7)]
    activeSessionId := some "a" }

/-! ## C1 — request-body synthesis from a caller-supplied body object -/

/-- C1, counterexample: the claim fails on an operation whose request body
is not required.  With caller bag containing only a body object (no
body_-prefixed key), buildRequestBody returns the empty JSON object, not
the serialization of the supplied object, because the early not-required
return fires before the body key is consulted. -/
theorem claim_C1_counterexample :
    ApiHttpClient.buildRequestBody rbOptional
        [("body", .obj [("name", .str "Rex")])] = "\x7b\x7d"
    ∧ (jsonStringify (Value.obj [("name", .str "Rex")])).getD ""
        = "\x7b\"name\":\"Rex\"\x7d"
    ∧ ApiHttpClient.buildRequestBody rbOptional
        [("body", .obj [("name", .str "Rex")])]
      ≠ (jsonStringify (getProp [("body", Value.obj [("name", .str "Rex")])] "body")).getD "" := by
  exact ⟨by decide, by decide, by decide⟩

/-- C1, amended: for an operation with a declared request body, when the
caller bag holds a body key whose value is an object AND either the body is
declared required or some caller key is body_-prefixed, the synthesized
body is exactly the JSON serialization of that object, regardless of any
co-present body_-prefixed keys.  (When the body is not required and no
body_-prefixed key exists, the empty JSON object is sent instead — the
original claim fails there.) -/
theorem claim_C1 (requestBody : RequestBodyInfo) (parameters : List (String × Value))
    (fields : List (String × Value))
    (hbody : getProp parameters "body" = Value.obj fields)
    (hreach : requestBody.required = true
      ∨ parameters.any (fun kv => jsStartsWith kv.1 "body_") = true) :
    ApiHttpClient.buildRequestBody requestBody parameters
      = (jsonStringify (Value.obj fields)).getD "" := by
  have hguard : (!requestBody.required
      && !(parameters.any (fun kv => jsStartsWith kv.1 "body_"))) = false := by
    rcases hreach with h | h <;> simp [h]
  simp [ApiHttpClient.buildRequestBody, hguard, hbody, truthy, typeofObject]

/-- C1, witness: the amended theorem at a concrete required-body call. -/
theorem claim_C1_witness :
    ApiHttpClient.buildRequestBody rbRequired
        [("body", .obj [("name", .str "Rex")]), ("body_ignored", .str "x")]
      = "\x7b\"name\":\"Rex\"\x7d" := by
  have h := claim_C1 rbRequired
    [("body", .obj [("name", .str "Rex")]), ("body_ignored", .str "x")]
    [("name", Value.str "Rex")] rfl (Or.inl rfl)
  rw [h]; decide

/-! ## C2 — validation of a required body against body_-prefixed keys -/

/-- C2, counterexample: on an operation with a required request body, a
caller bag holding a body_-prefixed key but no body key does NOT pass
validation — the body is reported missing, refuting the claim that either
form is accepted. -/
theorem claim_C2_counterexample :
    CallApi.collectMissingParams opRequiredBody (some [("body_name", .str "Rex")])
      = ["body (request body)"] := by
  decide

/-- C2, amended: pre-call validation accepts a required request body only
through a truthy body value: whenever the caller bag has no truthy body
entry the body is reported missing (body_-prefixed keys are not consulted),
and with a truthy body entry the body contributes no missing item. -/
theorem claim_C2 (operation : OperationInfo) (rb : RequestBodyInfo)
    (hrb : operation.requestBody = some rb) (hreq : rb.required = true)
    (ps : List (String × Value)) :
    (truthy (getProp ps "body") = false →
      "body (request body)" ∈ CallApi.collectMissingParams operation (some ps))
    ∧ (truthy (getProp ps "body") = true →
      CallApi.collectMissingParams operation (some ps)
        = (operation.parameters.getD []).foldl (fun acc param =>
            if param.required && (getProp ps param.name).isUndefined then
              acc ++ [param.name ++ " (" ++ param.location ++ ")"]
            else acc) []) := by
  constructor <;> intro h <;>
    simp [CallApi.collectMissingParams, hrb, hreq, h]

/-- C2, witness: the amended theorem at a concrete call whose bag holds
only a body_-prefixed key. -/
theorem claim_C2_witness :
    "body (request body)" ∈
      CallApi.collectMissingParams opRequiredBody (some [("body_name", .str "Rex")]) := by
  exact (claim_C2 opRequiredBody rbRequired rfl rfl
    [("body_name", .str "Rex")]).1 (by decide)

/-! ## C3 — parameter merge across declaration levels -/

/-- C3, counterexample: when a path-item-level parameter and an
operation-level parameter share the same (name, location) pair, BOTH
descriptors appear in the merged list — there is no deduplication and no
operation-level override, refuting the exactly-one claim. -/
theorem claim_C3_counterexample :
    (OpenApiDiscovery.extractParameters (some [rawIdParam]) (some [rawIdParam])).countP
      (fun d => d.name == "id" && d.location == "path") = 2 := by
  decide

/-- C3, amended: the merged parameter list is the path-item-level list
followed by the operation-level list, mapped entrywise, with no
deduplication: its (name, location) pairs are exactly those of the
concatenation in order, and a pair declared at both levels appears once per
declaration. -/
theorem claim_C3 (operationParams pathParams : Option (List OpenApiDiscovery.RawParameter)) :
    (OpenApiDiscovery.extractParameters operationParams pathParams).map
        (fun d => (d.name, d.location))
      = (pathParams.getD [] ++ operationParams.getD []).map
          (fun p => (p.name, p.location))
    ∧ ∀ (n l : String),
        (OpenApiDiscovery.extractParameters operationParams pathParams).countP
            (fun d => d.name == n && d.location == l)
          = (pathParams.getD []).countP (fun p => p.name == n && p.location == l)
            + (operationParams.getD []).countP (fun p => p.name == n && p.location == l) := by
  constructor
  · simp [OpenApiDiscovery.extractParameters, List.map_map]
    rfl
  · intro n l
    simp [OpenApiDiscovery.extractParameters, List.countP_map, List.countP_append]
    rfl

/-! ## C4 — header precedence: defaults, then caller, then auth -/

/-- A left fold whose step either overwrites the optional accumulator or
keeps it is determined by its run from none. -/
theorem foldl_if_overwrite {α β : Type} (c : α → Bool) (v : α → β) :
    ∀ (l : List α) (a : Option β),
    l.foldl (fun acc x => if c x then some (v x) else acc) a
      = match l.foldl (fun acc x => if c x then some (v x) else acc) none with
        | some w => some w
        | none => a := by
  intro l
  induction l with
  | nil => intro a; rfl
  | cons q rest ih =>
    intro a
    simp only [List.foldl_cons]
    rw [ih, ih (if c q then some (v q) else none)]
    cases hrest : rest.foldl (fun acc x => if c x then some (v x) else acc) none <;>
      cases hq : c q <;> simp

/-- Pointwise value of a fold of guarded header assignments: the last
matching write wins, falling back to the initial header record. -/
theorem foldl_hset_apply {α : Type} (c : α → Bool) (k v : α → String) (n : String) :
    ∀ (l : List α) (h : Headers),
    (l.foldl (fun h x => if c x then hset h (k x) (v x) else h) h) n
      = match l.foldl (fun acc x => if c x && k x == n then some (v x) else acc) none with
        | some w => some w
        | none => h n := by
  intro l
  induction l with
  | nil => intro h; rfl
  | cons q rest ih =>
    intro h
    simp only [List.foldl_cons]
    rw [ih, foldl_if_overwrite (fun x => c x && k x == n) v rest
      (if c q && k q == n then some (v q) else none)]
    cases hrest : rest.foldl
        (fun acc x => if c x && k x == n then some (v x) else acc) none with
    | some w => rfl
    | none =>
      cases hq : c q with
      | false => simp [hq, hset]
      | true =>
        cases hkq : k q == n with
        | true =>
          have : n = k q := (eq_of_beq hkq).symm
          simp [hq, hkq, hset, this]
        | false =>
          have : ¬ n = k q := fun hnk => by simp [hnk] at hkq
          simp [hq, hkq, hset, this]

/-- C4: header synthesis precedence.  With no auth descriptor, the value of
every header name is the last caller-supplied header-parameter write for
that name, falling back to the default record (Content-Type and Accept
application/json).  With a bearer descriptor carrying a non-empty token t,
the Authorization header is Bearer t and every other header is as in the
no-auth case — auth is applied last and wins over both defaults and caller
header parameters. -/
theorem claim_C4 (operation : OperationInfo) (parameters : List (String × Value))
    (t : String) (ht : t ≠ "") :
    (∀ n, ApiHttpClient.buildHeaders operation parameters
        (some { type := .bearer, config := [("token", t)] }) n
      = if n = "Authorization" then some ("Bearer " ++ t)
        else ApiHttpClient.buildHeaders operation parameters none n)
    ∧ (∀ n, ApiHttpClient.buildHeaders operation parameters none n
      = match callerHeaderValue operation parameters n with
        | some w => some w
        | none => ApiHttpClient.defaultHeaders n) := by
  constructor
  · intro n
    have htb : (t != "") = true := by simp [ht]
    simp [ApiHttpClient.buildHeaders, ApiHttpClient.addAuthHeaders,
      configGet, truthyStr, htb, hset]
  · intro n
    exact foldl_hset_apply
      (fun param => param.location == "header" && !(getProp parameters param.name).isUndefined)
      (fun param => param.name)
      (fun param => jsToString (getProp parameters param.name))
      n (operation.parameters.getD []) ApiHttpClient.defaultHeaders

/-- C4, witness: with a caller Authorization header parameter set to Custom
and a bearer token abc, the synthesized Authorization header is Bearer abc. -/
theorem claim_C4_witness :
    ApiHttpClient.buildHeaders authHeaderOp [("Authorization", .str "Custom")]
      (some { type := .bearer, config := [("token", "abc")] }) "Authorization"
      = some "Bearer abc" := by
  have h := (claim_C4 authHeaderOp [("Authorization", .str "Custom")] "abc"
    (by decide)).1 "Authorization"
  rw [h]
  simp

/-! ## C5 — credential isolation across source identities -/

/-- Updating an existing key in place leaves resolution of every other key
unchanged. -/
theorem getAuthConfig_map_update (m : ApiHttpClient.AuthMap) (k : String)
    (cfg : AuthConfig) (b : String) (h : b ≠ k) :
    ApiHttpClient.getAuthConfig
        (m.map (fun kv => if kv.1 == k then (kv.1, cfg) else kv)) b
      = ApiHttpClient.getAuthConfig m b := by
  induction m with
  | nil => rfl
  | cons kv rest ih =>
    rw [List.map_cons]
    by_cases h1 : (kv.1 == k) = true
    · have hk : kv.1 = k := eq_of_beq h1
      have h2 : (kv.1 == b) = false := by
        refine beq_eq_false_iff_ne.mpr ?_
        intro he
        exact h (he ▸ hk)
      have hhead : (if kv.1 == k then (kv.1, cfg) else kv) = (kv.1, cfg) := by
        rw [h1]
        rfl
      rw [hhead]
      unfold ApiHttpClient.getAuthConfig
      rw [List.find?_cons, List.find?_cons]
      simp only [h2]
      exact ih
    · have hhead : (if kv.1 == k then (kv.1, cfg) else kv) = kv := by
        simp [h1]
      rw [hhead]
      by_cases h2 : (kv.1 == b) = true
      · unfold ApiHttpClient.getAuthConfig
        rw [List.find?_cons, List.find?_cons]
        simp only [h2]
      · have h2f : (kv.1 == b) = false := by
          simpa using h2
        unfold ApiHttpClient.getAuthConfig
        rw [List.find?_cons, List.find?_cons]
        simp only [h2f]
        exact ih

/-- Appending a binding for a different key leaves resolution unchanged. -/
theorem getAuthConfig_append_single_ne (m : ApiHttpClient.AuthMap) (k : String)
    (cfg : AuthConfig) (b : String) (h : b ≠ k) :
    ApiHttpClient.getAuthConfig (m ++ [(k, cfg)]) b
      = ApiHttpClient.getAuthConfig m b := by
  induction m with
  | nil =>
    have hk : (k == b) = false := beq_eq_false_iff_ne.mpr (fun he => h he.symm)
    simp [ApiHttpClient.getAuthConfig, List.find?, hk]
  | cons kv rest ih =>
    rw [List.cons_append]
    by_cases h2 : (kv.1 == b) = true
    · unfold ApiHttpClient.getAuthConfig
      rw [List.find?_cons, List.find?_cons]
      simp only [h2]
    · have h2f : (kv.1 == b) = false := by
        simpa using h2
      unfold ApiHttpClient.getAuthConfig
      rw [List.find?_cons, List.find?_cons]
      simp only [h2f]
      exact ih

/-- `Map.set` on one key never changes what any other key resolves to:
resolution is an exact-match lookup. -/
theorem getAuthConfig_setAuthConfig_ne (m : ApiHttpClient.AuthMap) (k : String)
    (cfg : AuthConfig) (b : String) (h : b ≠ k) :
    ApiHttpClient.getAuthConfig (ApiHttpClient.setAuthConfig m k cfg) b
      = ApiHttpClient.getAuthConfig m b := by
  unfold ApiHttpClient.setAuthConfig
  split
  · exact getAuthConfig_map_update m k cfg b h
  · exact getAuthConfig_append_single_ne m k cfg b h

/-- One reload step touches only the session's openApiPath and baseUrl
keys. -/
theorem getAuthConfig_loadAuthStep_ne (acc : ApiHttpClient.AuthMap)
    (session : ApiSession) (b : String)
    (hb : b ≠ session.baseUrl)
    (hp : ∀ p, session.openApiPath = some p → b ≠ p) :
    ApiHttpClient.getAuthConfig (ApiHttpClient.loadAuthStep acc session) b
      = ApiHttpClient.getAuthConfig acc b := by
  unfold ApiHttpClient.loadAuthStep
  cases hac : session.authConfig with
  | none => simp [hac]
  | some cfg =>
    cases hop : session.openApiPath with
    | none => simp [hac, hop]
    | some p =>
      by_cases hpe : p == ""
      · simp [hac, hop, hpe]
      · simp only [hac, hop, hpe, if_false, Bool.false_eq_true]
        rw [getAuthConfig_setAuthConfig_ne _ _ _ _ hb,
          getAuthConfig_setAuthConfig_ne _ _ _ _ (hp p hop)]

/-- The whole reload fold touches only keys among the sessions' openApiPath
and baseUrl values. -/
theorem getAuthConfig_loadAuthFold_ne (b : String) :
    ∀ (sessions : List ApiSession) (m : ApiHttpClient.AuthMap),
    (∀ s ∈ sessions, b ≠ s.baseUrl ∧ ∀ p, s.openApiPath = some p → b ≠ p) →
    ApiHttpClient.getAuthConfig (sessions.foldl ApiHttpClient.loadAuthStep m) b
      = ApiHttpClient.getAuthConfig m b := by
  intro sessions
  induction sessions with
  | nil => intro m _; rfl
  | cons s rest ih =>
    intro m hall
    simp only [List.foldl_cons]
    rw [ih _ (fun s' hs' => hall s' (List.mem_cons_of_mem _ hs'))]
    exact getAuthConfig_loadAuthStep_ne m s b
      (hall s (List.mem_cons_self _ _)).1 (hall s (List.mem_cons_self _ _)).2

/-- Replacing a session's auth descriptor leaves every session's baseUrl
and openApiPath as some original session's. -/
theorem setAuthConfig_preserves_urls (storage : SessionStorage) (sid : String)
    (cfg : AuthConfig) (now : Nat) :
    ∀ kv ∈ (SessionManager.setAuthConfig storage sid cfg now).2.sessions,
      ∃ kv0 ∈ storage.sessions,
        kv.2.baseUrl = kv0.2.baseUrl ∧ kv.2.openApiPath = kv0.2.openApiPath := by
  unfold SessionManager.setAuthConfig
  split
  · intro kv hkv
    exact ⟨kv, hkv, rfl, rfl⟩
  · intro kv hkv
    simp only at hkv
    obtain ⟨kv0, hkv0, hkv0e⟩ := List.mem_map.mp hkv
    refine ⟨kv0, hkv0, ?_⟩
    by_cases h : kv0.1 == sid <;> simp [h] at hkv0e <;> rw [← hkv0e] <;>
      exact ⟨rfl, rfl⟩

/-- C5, counterexample: configuring authentication for the document URL of
a saved session also changes what the session's base URL (a distinct source
identity) resolves to — the reload keys the descriptor under both — so
configuring auth for one source identity is NOT isolated from others. -/
theorem claim_C5_counterexample :
    ApiHttpClient.getAuthConfig ([] : ApiHttpClient.AuthMap) "https://h" = none
    ∧ ApiHttpClient.getAuthConfig
        (ManageAuth.manageAuth [] storageH "https://h/openapi.json" .bearer
          [("token", "t")] 1).1 "https://h"
      = some { type := .bearer, config := [("token", "t")] } := by
  constructor
  · rfl
  · simp [ManageAuth.manageAuth, ManageAuth.validateAuthConfig, configGet, truthyStr,
      SessionManager.listSessions, SessionManager.setAuthConfig, SessionManager.sessionsGet,
      ApiHttpClient.loadAuthFromSessions, ApiHttpClient.loadAuthStep,
      ApiHttpClient.setAuthConfig, ApiHttpClient.getAuthConfig, storageH, sessionH,
      List.mergeSort, jsIncludes, charsContain, charsLead, List.find?]

/-- C5, amended: resolution is an exact-match lookup, and configuring
authentication for identity docs_path can change resolution only for
docs_path itself and for the baseUrl/openApiPath keys of saved sessions
(through the session-match-and-reload path of manageAuth): for every
identity b distinct from docs_path and from every saved session's baseUrl
and openApiPath, the credential resolved for b is unchanged.  The original
unconditional isolation fails because a matched session republishes the
descriptor under both its openApiPath and its baseUrl keys. -/
theorem claim_C5 (m : ApiHttpClient.AuthMap) (storage : SessionStorage)
    (docs_path : String) (auth_type : AuthType) (config : List (String × String))
    (now : Nat) (b : String)
    (hb1 : b ≠ docs_path)
    (hb2 : ∀ kv ∈ storage.sessions, b ≠ kv.2.baseUrl
        ∧ ∀ p, kv.2.openApiPath = some p → b ≠ p) :
    ApiHttpClient.getAuthConfig
        (ManageAuth.manageAuth m storage docs_path auth_type config now).1 b
      = ApiHttpClient.getAuthConfig m b := by
  unfold ManageAuth.manageAuth
  by_cases hval : (ManageAuth.validateAuthConfig auth_type config).isEmpty
  · simp only [hval, Bool.not_true, if_false, Bool.false_eq_true]
    cases hmatch : (SessionManager.listSessions storage).find? (fun session =>
        session.openApiPath == some docs_path
        || session.baseUrl == docs_path
        || (truthyStr session.openApiPath
            && jsIncludes (session.openApiPath.getD "") docs_path)
        || jsIncludes docs_path session.baseUrl) with
    | none =>
      simp only [hmatch]
      exact getAuthConfig_setAuthConfig_ne m docs_path _ b hb1
    | some s =>
      simp only [hmatch]
      unfold ApiHttpClient.loadAuthFromSessions
      rw [getAuthConfig_loadAuthFold_ne b _ _ ?_]
      · exact getAuthConfig_setAuthConfig_ne m docs_path _ b hb1
      · intro s' hs'
        have hmem : s' ∈ (SessionManager.setAuthConfig storage s.id
            ⟨auth_type, config⟩ now).2.sessions.map (·.2) := by
          simpa [SessionManager.listSessions] using List.mem_mergeSort.mp hs'
        obtain ⟨kv', hkv', hkv'e⟩ := List.mem_map.mp hmem
        obtain ⟨kv0, hkv0, hurl, hpath⟩ :=
          setAuthConfig_preserves_urls storage s.id ⟨auth_type, config⟩ now kv' hkv'
        subst hkv'e
        refine ⟨hurl ▸ (hb2 kv0 hkv0).1, ?_⟩
        intro p hps
        exact (hb2 kv0 hkv0).2 p (hpath ▸ hps)
  · simp only [hval]
    simp

/-- C5, witness: the amended frame property at a store with no saved
sessions and a fresh identity. -/
theorem claim_C5_witness :
    ApiHttpClient.getAuthConfig
        (ManageAuth.manageAuth [("a", { type := .bearer, config := [("token", "x")] })]
          SessionManager.emptyStorage "https://api.example.com/spec.json" .bearer
          [("token", "t")] 1).1 "other"
      = ApiHttpClient.getAuthConfig
          [("a", { type := .bearer, config := [("token", "x")] })] "other" := by
  exact claim_C5 _ SessionManager.emptyStorage "https://api.example.com/spec.json"
    .bearer [("token", "t")] 1 "other" (by decide)
    (by intro kv hkv; exact absurd hkv (List.not_mem_nil kv))

/-! ## C6 — validation reports every missing item together -/

/-- A fold that only appends entries never loses anything already
accumulated. -/
theorem foldl_append_entry_sub {α : Type} (c : α → Bool) (entryOf : α → String) :
    ∀ (l : List α) (acc : List String) (x : String), x ∈ acc →
      x ∈ l.foldl (fun acc q => if c q then acc ++ [entryOf q] else acc) acc := by
  intro l
  induction l with
  | nil => intro acc x hx; exact hx
  | cons q rest ih =>
    intro acc x hx
    simp only [List.foldl_cons]
    by_cases hq : c q = true
    · simp only [hq, if_true]
      exact ih _ x (List.mem_append_left _ hx)
    · simp only [hq, if_false]
      exact ih _ x hx

/-- Every element satisfying the guard contributes its entry to the fold
result, wherever it sits in the list. -/
theorem foldl_append_entry_mem {α : Type} (c : α → Bool) (entryOf : α → String) :
    ∀ (l : List α) (acc : List String) (p : α), p ∈ l → c p = true →
      entryOf p ∈ l.foldl (fun acc q => if c q then acc ++ [entryOf q] else acc) acc := by
  intro l
  induction l with
  | nil => intro acc p hp; exact absurd hp (List.not_mem_nil p)
  | cons q rest ih =>
    intro acc p hp hcp
    simp only [List.foldl_cons]
    rcases List.mem_cons.mp hp with hpq | hprest
    · subst hpq
      simp only [hcp, if_true]
      exact foldl_append_entry_sub c entryOf rest _ _
        (List.mem_append_right _ (List.mem_singleton_self _))
    · exact ih _ p hprest hcp

/-- Membership in an accumulator survives an optional trailing append. -/
theorem mem_ite_append {x : String} {L M : List String} {C : Prop} [Decidable C]
    (h : x ∈ L) : x ∈ (if C then L ++ M else L) := by
  split
  · exact List.mem_append_left _ h
  · exact h

/-- C6: validation reports every missing required item together in one
pass, annotated name (location): every required declared parameter whose
caller value is undefined appears in the missing list (never only the first
one found), and the createUser example with required body-located username
and email and no caller bag yields exactly the two-element list
username (body), email (body). -/
theorem claim_C6 (operation : OperationInfo) (ps : Option (List (String × Value))) :
    (∀ param ∈ operation.parameters.getD [],
      (param.required && (match ps with
        | none => true
        | some l => (getProp l param.name).isUndefined)) = true →
      (param.name ++ " (" ++ param.location ++ ")")
        ∈ CallApi.collectMissingParams operation ps)
    ∧ CallApi.collectMissingParams createUserOp none
        = ["username (body)", "email (body)"] := by
  constructor
  · intro param hmem hcond
    unfold CallApi.collectMissingParams
    cases ps with
    | none =>
      exact mem_ite_append (foldl_append_entry_mem
        (fun param => param.required && true)
        (fun param => param.name ++ " (" ++ param.location ++ ")")
        (operation.parameters.getD []) [] param hmem hcond)
    | some l =>
      exact mem_ite_append (foldl_append_entry_mem
        (fun param => param.required && (getProp l param.name).isUndefined)
        (fun param => param.name ++ " (" ++ param.location ++ ")")
        (operation.parameters.getD []) [] param hmem hcond)
  · decide

/-- C6, witness: both required body parameters of createUser are reported. -/
theorem claim_C6_witness :
    "username (body)" ∈ CallApi.collectMissingParams createUserOp none
    ∧ "email (body)" ∈ CallApi.collectMissingParams createUserOp none := by
  refine ⟨?_, ?_⟩
  · exact (claim_C6 createUserOp none).1
      { name := "username", location := "body", required := true
        schema := .undefined, description := none }
      (List.mem_cons_self _ _) (by decide)
  · exact (claim_C6 createUserOp none).1
      { name := "email", location := "body", required := true
        schema := .undefined, description := none }
      (List.mem_cons_of_mem _ (List.mem_cons_self _ _)) (by decide)

/-! ## C7 — result shape: status class, carried fields, absorbed transport failure -/

/-- C7: the success flag of a processed response is true exactly when the
status is 2xx; statusCode, headers and executionTime are always carried;
on a non-2xx response the error is HTTP status: statusText; and a
transport-level failure yields a result with no statusCode, the failure
description as error and the measured executionTime — it is absorbed,
never re-thrown. -/
theorem claim_C7 (response : ApiHttpClient.FetchResponse) (t : Nat) :
    ((ApiHttpClient.processResponse response t).success = true
      ↔ (200 ≤ response.status ∧ response.status < 300))
    ∧ (ApiHttpClient.processResponse response t).statusCode = some response.status
    ∧ (ApiHttpClient.processResponse response t).headers = some response.headers
    ∧ (ApiHttpClient.processResponse response t).executionTime = some t
    ∧ ((ApiHttpClient.processResponse response t).success = false →
        (ApiHttpClient.processResponse response t).error
          = some ("HTTP " ++ toString response.status ++ ": " ++ response.statusText))
    ∧ (∀ e, ApiHttpClient.callOperationResult (Except.error e) t
        = { success := false, statusCode := none, data := none, error := some e,
            headers := none, executionTime := some t }) := by
  refine ⟨?_, rfl, rfl, rfl, ?_, fun e => rfl⟩
  · simp [ApiHttpClient.processResponse, ApiHttpClient.responseOk]
  · intro hfail
    have hok : ApiHttpClient.responseOk response = false := hfail
    simp [ApiHttpClient.processResponse, hok]

/-- C7, witness: a 404 JSON response yields success false, statusCode 404
and error HTTP 404: Not Found; a connection failure yields the absorbed
error result. -/
theorem claim_C7_witness :
    (ApiHttpClient.processResponse resp404 5).error = some "HTTP 404: Not Found"
    ∧ ApiHttpClient.callOperationResult (Except.error "connect ECONNREFUSED") 7
      = { success := false, statusCode := none, data := none,
          error := some "connect ECONNREFUSED", headers := none,
          executionTime := some 7 } := by
  refine ⟨?_, (claim_C7 resp404 7).2.2.2.2.2 "connect ECONNREFUSED"⟩
  have h := (claim_C7 resp404 5).2.2.2.2.1 (by decide)
  simpa using h

/-! ## C8 — one descriptor per declared (path, method); id uniqueness -/

/-- The per-item operation walk produces exactly one element per declared
method key, whatever is built from each. -/
theorem filterMap_methods_length {α : Type} (item : OpenApiDiscovery.RawPathItem)
    (f : String → OpenApiDiscovery.RawOperation → α) :
    (OpenApiDiscovery.httpMethods.filterMap (fun method =>
      (OpenApiDiscovery.pathItemMethod item method).map (f method))).length
      = OpenApiDiscovery.declaredMethodCount item := by
  rcases item with ⟨g, po, pu, de, pa, he, op, tr, params⟩
  cases g <;> cases po <;> cases pu <;> cases de <;> cases pa <;> cases he <;>
    cases op <;> cases tr <;> rfl

/-- Projecting each produced descriptor of one path item to its
(path, method) pair recovers the declared pairs of that item. -/
theorem pairs_of_item (p : String) (item : OpenApiDiscovery.RawPathItem) :
    (OpenApiDiscovery.httpMethods.filterMap (fun method =>
        (OpenApiDiscovery.pathItemMethod item method).map
          (OpenApiDiscovery.mkOperationInfo p item method))).map
        (fun o => (o.path, o.method))
      = OpenApiDiscovery.httpMethods.filterMap (fun method =>
          (OpenApiDiscovery.pathItemMethod item method).map
            (fun _ => (p, OpenApiDiscovery.jsToUpperCase method))) := by
  rw [List.map_filterMap]
  congr 1
  funext method
  cases OpenApiDiscovery.pathItemMethod item method <;> rfl

/-- The (path, method) projection of the whole walk over a path-entry list
equals the declared pairs of that list. -/
theorem ops_pairs_entries (entries : List (String × Option OpenApiDiscovery.RawPathItem)) :
    (entries.flatMap (fun pe =>
      match pe.2 with
      | none => []
      | some item => OpenApiDiscovery.httpMethods.filterMap (fun method =>
          (OpenApiDiscovery.pathItemMethod item method).map
            (OpenApiDiscovery.mkOperationInfo pe.1 item method)))).map
      (fun o => (o.path, o.method))
      = entries.flatMap (fun pe =>
        match pe.2 with
        | none => []
        | some item => OpenApiDiscovery.httpMethods.filterMap (fun method =>
            (OpenApiDiscovery.pathItemMethod item method).map
              (fun _ => (pe.1, OpenApiDiscovery.jsToUpperCase method)))) := by
  induction entries with
  | nil => rfl
  | cons pe rest ih =>
    rw [List.flatMap_cons, List.flatMap_cons, List.map_append, ih]
    congr 1
    cases pe.2 with
    | none => rfl
    | some item => exact pairs_of_item pe.1 item

/-- The length of the walk over a path-entry list is the sum of the
declared method counts. -/
theorem ops_length_entries (entries : List (String × Option OpenApiDiscovery.RawPathItem)) :
    (entries.flatMap (fun pe =>
      match pe.2 with
      | none => []
      | some item => OpenApiDiscovery.httpMethods.filterMap (fun method =>
          (OpenApiDiscovery.pathItemMethod item method).map
            (OpenApiDiscovery.mkOperationInfo pe.1 item method)))).length
      = (entries.map (fun pe => match pe.2 with
          | none => 0
          | some item => OpenApiDiscovery.declaredMethodCount item)).sum := by
  induction entries with
  | nil => rfl
  | cons pe rest ih =>
    rw [List.flatMap_cons, List.length_append, List.map_cons, List.sum_cons, ih]
    congr 1
    cases pe.2 with
    | none => rfl
    | some item => exact filterMap_methods_length item _

/-- C8, counterexample: two distinct paths whose sanitized forms coincide,
each declaring a get operation without an explicit id, produce two
descriptors sharing the derived operationId get__a_b — derived ids are NOT
guaranteed unique within the document. -/
theorem claim_C8_counterexample :
    (OpenApiDiscovery.extractOperations collidingSpec).map (·.operationId)
      = ["get__a_b", "get__a_b"]
    ∧ ¬ ((OpenApiDiscovery.extractOperations collidingSpec).map (·.operationId)).Nodup := by
  exact ⟨by decide, by decide⟩

/-- C8, amended: normalization produces exactly one descriptor per declared
(path, HTTP method) combination — the (path, method) projections equal the
declared pairs in walk order, and the total equals the sum over path items
of the methods declared on each — and a missing operationId is derived as
method_sanitizedPath; but the ids are NOT deduplicated, so uniqueness
within the document is not guaranteed (sanitization collisions or duplicate
declared ids yield duplicates). -/
theorem claim_C8 (spec : OpenApiDiscovery.RawSpec) :
    (OpenApiDiscovery.extractOperations spec).map (fun o => (o.path, o.method))
      = OpenApiDiscovery.declaredPairs spec
    ∧ (OpenApiDiscovery.extractOperations spec).length
      = ((spec.paths.getD []).map (fun pe => match pe.2 with
          | none => 0
          | some item => OpenApiDiscovery.declaredMethodCount item)).sum
    ∧ (∀ path item method operation,
        (OpenApiDiscovery.mkOperationInfo path item method operation).operationId
          = OpenApiDiscovery.jsOrStr operation.operationId
              (method ++ "_" ++ OpenApiDiscovery.sanitizePath path)) := by
  refine ⟨?_, ?_, fun _ _ _ _ => rfl⟩
  · unfold OpenApiDiscovery.extractOperations OpenApiDiscovery.declaredPairs
    cases spec.paths with
    | none => rfl
    | some entries => exact ops_pairs_entries entries
  · unfold OpenApiDiscovery.extractOperations
    cases spec.paths with
    | none => rfl
    | some entries => exact ops_length_entries entries

/-! ## C9 — corrupt persisted file degrades to the empty store -/

/-- C9: when the persisted session file exists but its content is corrupt
or unparsable (the parse outcome is none), the store initializes to the
empty store rather than crashing, and every subsequent lookup — getSession,
getAuthConfig, listSessions — behaves as on a store containing no
sessions. -/
theorem claim_C9 :
    SessionManager.loadSessions true none = SessionManager.emptyStorage
    ∧ (∀ sessionId,
        SessionManager.getSession (SessionManager.loadSessions true none) sessionId
          = none)
    ∧ (∀ sessionId,
        SessionManager.getAuthConfig (SessionManager.loadSessions true none) sessionId
          = none)
    ∧ SessionManager.listSessions (SessionManager.loadSessions true none) = [] := by
  refine ⟨rfl, fun _ => rfl, fun _ => rfl, ?_⟩
  simp [SessionManager.listSessions, SessionManager.loadSessions,
    SessionManager.emptyStorage]

/-! ## C10 — deleteSession keeps the active pointer valid -/

/-- The head of the sorted session list has maximal lastUsed among its
members. -/
theorem listSessions_head_max (storage : SessionStorage) :
    ∀ s ∈ SessionManager.listSessions storage,
    ∀ hd, (SessionManager.listSessions storage).head? = some hd →
      s.lastUsed ≤ hd.lastUsed := by
  intro s hs hd hhd
  have hsorted : ((storage.sessions.map (·.2)).mergeSort
      (fun a b => decide (b.lastUsed ≤ a.lastUsed))).Pairwise
      (fun a b => decide (b.lastUsed ≤ a.lastUsed) = true) :=
    List.sorted_mergeSort
      (by
        intro a b c hab hbc
        exact decide_eq_true
          (Nat.le_trans (of_decide_eq_true hbc) (of_decide_eq_true hab)))
      (by
        intro a b
        rcases Nat.le_total b.lastUsed a.lastUsed with h | h <;> simp [h])
      (storage.sessions.map (·.2))
  unfold SessionManager.listSessions at hs hhd
  cases hlist : (storage.sessions.map (·.2)).mergeSort
      (fun a b => decide (b.lastUsed ≤ a.lastUsed)) with
  | nil => rw [hlist] at hhd; exact absurd hhd (by simp)
  | cons a tl =>
    rw [hlist] at hs hhd
    have ha : hd = a := by simpa using hhd.symm
    subst ha
    rw [hlist] at hsorted
    rcases List.mem_cons.mp hs with h | h
    · exact h ▸ Nat.le_refl _
    · exact of_decide_eq_true ((List.pairwise_cons.mp hsorted).1 s h)

/-- C10: deleting an unknown session id returns false and leaves the store
unchanged; deletion preserves the invariant that the active pointer names
an existing session or is unset (given the store is well formed); and
deleting the currently active session reassigns the pointer to the head of
the lastUsed-descending sort of the remaining sessions — a most recently
used remaining session, whose lastUsed is maximal — or to none when no
session remains. -/
theorem claim_C10 (storage : SessionStorage) (sessionId : String) :
    (SessionManager.sessionsGet storage.sessions sessionId = none →
      SessionManager.deleteSession storage sessionId = (false, storage))
    ∧ (idsOk storage = true → activeOk storage = true →
        activeOk (SessionManager.deleteSession storage sessionId).2 = true)
    ∧ (storage.activeSessionId = some sessionId →
        (SessionManager.sessionsGet storage.sessions sessionId).isSome = true →
        (SessionManager.deleteSession storage sessionId).2.activeSessionId
          = (SessionManager.listSessions
              { sessions := storage.sessions.filter (fun kv => kv.1 != sessionId),
                activeSessionId := storage.activeSessionId }).head?.map (·.id)
        ∧ ∀ s ∈ SessionManager.listSessions
              { sessions := storage.sessions.filter (fun kv => kv.1 != sessionId),
                activeSessionId := storage.activeSessionId },
            ∀ hd, (SessionManager.listSessions
              { sessions := storage.sessions.filter (fun kv => kv.1 != sessionId),
                activeSessionId := storage.activeSessionId }).head? = some hd →
              s.lastUsed ≤ hd.lastUsed) := by
  refine ⟨?_, ?_, ?_⟩
  · intro h
    unfold SessionManager.deleteSession
    rw [if_pos (by simp [h])]
  · intro hids hact
    unfold SessionManager.deleteSession
    by_cases hnone : (SessionManager.sessionsGet storage.sessions sessionId).isNone = true
    · rw [if_pos hnone]
      exact hact
    · rw [if_neg hnone]
      by_cases hae : (storage.activeSessionId == some sessionId) = true
      · simp only [hae, if_true]
        cases hhd : (SessionManager.listSessions
            { sessions := storage.sessions.filter (fun kv => kv.1 != sessionId),
              activeSessionId := storage.activeSessionId }).head? with
        | none => simp [activeOk, hhd]
        | some hd =>
          simp only [activeOk, hhd, Option.map_some]
          have hmem : hd ∈ SessionManager.listSessions
              { sessions := storage.sessions.filter (fun kv => kv.1 != sessionId),
                activeSessionId := storage.activeSessionId } := by
            cases hlist : SessionManager.listSessions
                { sessions := storage.sessions.filter (fun kv => kv.1 != sessionId),
                  activeSessionId := storage.activeSessionId } with
            | nil => rw [hlist] at hhd; exact absurd hhd (by simp)
            | cons a tl =>
              rw [hlist] at hhd
              have ha : hd = a := by simpa using hhd.symm
              rw [ha]
              exact List.mem_cons_self _ _
          have hmem2 : hd ∈ (storage.sessions.filter
              (fun kv => kv.1 != sessionId)).map (·.2) := by
            simpa [SessionManager.listSessions] using List.mem_mergeSort.mp hmem
          obtain ⟨kv, hkv, hkve⟩ := List.mem_map.mp hmem2
          have hkvmem : kv ∈ storage.sessions := (List.mem_filter.mp hkv).1
          have hkvid : kv.2.id = kv.1 :=
            eq_of_beq ((List.all_eq_true.mp hids) kv hkvmem)
          refine List.any_eq_true.mpr ⟨kv, hkv, ?_⟩
          rw [← hkve]
          simp [hkvid]
      · have haef : (storage.activeSessionId == some sessionId) = false := by
          simpa using hae
        simp only [haef, Bool.false_eq_true, if_false]
        simp only [activeOk]
        cases hacts : storage.activeSessionId with
        | none => rfl
        | some a =>
          have hany : storage.sessions.any (fun kv => kv.1 == a) = true := by
            simpa [activeOk, hacts] using hact
          obtain ⟨kv, hkv, hkva⟩ := List.any_eq_true.mp hany
          have ha : a ≠ sessionId := by
            intro he
            rw [hacts, he] at hae
            exact hae (by simp)
          refine List.any_eq_true.mpr ⟨kv, List.mem_filter.mpr ⟨hkv, ?_⟩, hkva⟩
          have hk1 : kv.1 = a := eq_of_beq hkva
          simp [hk1, ha]
  · intro hacts hsome
    have hnone : ¬ (SessionManager.sessionsGet storage.sessions sessionId).isNone = true := by
      cases hval : SessionManager.sessionsGet storage.sessions sessionId
      · exact absurd (hval ▸ hsome) (by simp)
      · simp
    unfold SessionManager.deleteSession
    rw [if_neg hnone]
    constructor
    · simp [hacts]
    · exact listSessions_head_max _

/-- C10, witness: deleting an unknown id leaves a concrete store unchanged,
and deleting the active session of a well-formed concrete store keeps the
pointer valid. -/
theorem claim_C10_witness :
    SessionManager.deleteSession storageThree "z" = (false, storageThree)
    ∧ activeOk (SessionManager.deleteSession storageThree "a").2 = true := by
  exact ⟨(claim_C10 storageThree "z").1 (by decide),
    (claim_C10 storageThree "a").2.1 (by decide) (by decide)⟩

end OpenApiMcp
